import Mathlib

/-!
Verification of the cloud-sync engine of `docs/js/sync.js` (Roundtable Guides).

The JavaScript source is shallowly embedded: JSON objects become Lean
structures, JS object key/value maps become ordered association lists
(`List (key × value)`, first-match lookup, in-place replacement on update —
matching the insertion-order semantics of JS objects), absent keys become
`Option.none`, and `Date.now()` timestamps become `Nat` (default `0` mirrors
the `|| 0` fallbacks in the source).  Every definition cites the source lines
it was translated from.
-/

namespace RoundtableSync

/-! ### Association-list primitives (JS object semantics) -/

/-- First-match lookup of a key in an association list; `none` models a JS
object not having the key (`undefined`). -/
def lookupA {α β : Type} [DecidableEq α] : List (α × β) → α → Option β
  | [], _ => none
  | e :: rest, k => if e.1 = k then some e.2 else lookupA rest k

/-- JS object property write `o[k] = v`: replaces the first entry with key
`k` in place (keeping its position, as JS keeps key insertion order), or
appends a new entry at the end when the key was absent. -/
def setA {α β : Type} [DecidableEq α] : List (α × β) → α → β → List (α × β)
  | [], k, v => [(k, v)]
  | e :: rest, k, v => if e.1 = k then (k, v) :: rest else e :: setA rest k v

/-- The keys of an association list, in order. -/
def keysA {α β : Type} (l : List (α × β)) : List α := l.map Prod.fst

/-! ### Data model (spec.md section 3, as stored by sync.js) -/

/-- An opaque JSON value stored in a profile (checked-state booleans, style
strings, etc.).  `jnull` is JSON `null`, which is a *defined* value in JS,
unlike an absent key. -/
inductive JVal where
  | jnull
  | jbool (b : Bool)
  | jnum (n : Int)
  | jstr (s : String)
deriving DecidableEq

/-- Per-profile sync watermark `profile.syncMeta` (read at sync.js 276-277). -/
structure ProfileSyncMeta where
  lastSyncAt : Option Nat
deriving DecidableEq

/-- One profile of the synchronized document (spec.md section 3; fields read
and written by `mergeProfiles`, sync.js 260-282).  `Option.none` on a field
means the underlying JS object lacks the key. -/
structure Profile where
  checklistData : Option (List (String × JVal))
  checklistTimestamps : Option (List (String × Nat))
  style : Option JVal
  journey : Option JVal
  hide_completed : Option JVal
  collapsed : Option JVal
  map_settings : Option JVal
  syncMeta : Option ProfileSyncMeta
deriving DecidableEq

/-- Top-level `_syncMeta` written by `doSync` (sync.js 297-300) and
`doPullAndMerge` (sync.js 342-348). -/
structure TopSyncMeta where
  lastSyncAt : Option Nat
  version : Option Nat
deriving DecidableEq

/-- The synchronized document: the jStorage value under `profilesKey`.  Its
`profilesKey` sub-object (the map of profiles) is the `profiles` field here;
`current` and `_syncMeta` are the other top-level keys sync.js touches. -/
structure Document where
  profiles : Option (List (String × Profile))
  current : Option String
  syncMeta : Option TopSyncMeta
deriving DecidableEq

/-- The document with no keys at all: `$.jStorage.get(profilesKey, {})`
yields this when nothing was stored yet (sync.js 296, 331). -/
def emptyDoc : Document := { profiles := none, current := none, syncMeta := none }

/-- A profile object with no keys. -/
def emptyProfile : Profile :=
  { checklistData := none, checklistTimestamps := none, style := none,
    journey := none, hide_completed := none, collapsed := none,
    map_settings := none, syncMeta := none }

/-! ### Merge engine (sync.js 249-287) -/

/-- `if (rp[k] !== undefined) lp[k] = rp[k]` (sync.js 279-281): the remote
value overwrites the local one only when the remote key is defined. -/
def overwrite (l r : Option JVal) : Option JVal :=
  match r with
  | some v => some v
  | none => l

/-- One iteration of the item-level merge loop (sync.js 267-271):
`rt = remoteTs[itemId] || 0; lt = localTs[itemId] || 0;
if (rt > lt) { mergedData[itemId] = rVal; mergedTs[itemId] = rt; }`.
The accumulator is the pair `(mergedData, mergedTs)`. -/
def itemStep (localTs remoteTs : List (String × Nat))
    (acc : List (String × JVal) × List (String × Nat)) (e : String × JVal) :
    List (String × JVal) × List (String × Nat) :=
  let rt := (lookupA remoteTs e.1).getD 0
  let lt := (lookupA localTs e.1).getD 0
  if lt < rt then (setA acc.1 e.1 e.2, setA acc.2 e.1 rt) else acc

/-- Merge of one profile present in both documents (sync.js 260-282):
item-level merge of `checklistData`/`checklistTimestamps` starting from
shallow copies of the local data (`$.extend`), then the five non-mergeable
fields overwritten from remote only when the remote profile's
`syncMeta.lastSyncAt` is strictly greater than the local one's. -/
def mergeProfilePair (lp rp : Profile) : Profile :=
  let localTs := lp.checklistTimestamps.getD []
  let remoteTs := rp.checklistTimestamps.getD []
  let folded := (rp.checklistData.getD []).foldl (itemStep localTs remoteTs)
      (lp.checklistData.getD [], localTs)
  let lp1 : Profile :=
    { lp with checklistData := some folded.1, checklistTimestamps := some folded.2 }
  let lSyncAt := (lp.syncMeta.bind (fun m => m.lastSyncAt)).getD 0
  let rSyncAt := (rp.syncMeta.bind (fun m => m.lastSyncAt)).getD 0
  if lSyncAt < rSyncAt then
    { lp1 with
      style := overwrite lp1.style rp.style,
      journey := overwrite lp1.journey rp.journey,
      hide_completed := overwrite lp1.hide_completed rp.hide_completed,
      collapsed := overwrite lp1.collapsed rp.collapsed,
      map_settings := overwrite lp1.map_settings rp.map_settings }
  else lp1

/-- One iteration of the profile loop (sync.js 255-283): a remote profile
absent from the merged map is adopted wholesale; one present in both is
replaced by `mergeProfilePair`. -/
def profStep (mp : List (String × Profile)) (e : String × Profile) :
    List (String × Profile) :=
  match lookupA mp e.1 with
  | none => setA mp e.1 e.2
  | some lp => setA mp e.1 (mergeProfilePair lp e.2)

/-- `mergeProfiles(local, remote)` (sync.js 249-287).  The
`JSON.parse(JSON.stringify(local))` deep copy at line 251 is the identity at
the value level, so `merged` starts as `local`; `(doc && doc[profilesKey]) || {}`
becomes `profiles.getD []`; the final `merged[profilesKey] = mergedProfs`
always (re)sets the profiles key on the result. -/
def mergeProfiles (localDoc : Document) (remote : Option Document) : Document :=
  match remote with
  | none => localDoc
  | some r =>
    let remoteProfs := r.profiles.getD []
    let mergedProfs0 := localDoc.profiles.getD []
    let mergedProfs := remoteProfs.foldl profStep mergedProfs0
    { localDoc with profiles := some mergedProfs }

/-! ### Sync metadata stamping (sync.js 292-373) -/

/-- `(d._syncMeta && d._syncMeta.version) || 0` (sync.js 299, 345-346). -/
def docVersion (d : Document) : Nat :=
  (d.syncMeta.bind (fun m => m.version)).getD 0

/-- `(d._syncMeta && d._syncMeta.lastSyncAt) || 0` (sync.js 332-333). -/
def docLastSyncAt (d : Document) : Nat :=
  (d.syncMeta.bind (fun m => m.lastSyncAt)).getD 0

/-- The `_syncMeta` stamping done by `doSync` on the local document before
pushing it (sync.js 296-300): `lastSyncAt = Date.now()`,
`version = (prior version || 0) + 1`. -/
def stampPush (d : Document) (now : Nat) : Document :=
  { d with syncMeta := some ({ lastSyncAt := some now, version := some (docVersion d + 1) } : TopSyncMeta) }

/-- The merged document computed by `doPullAndMerge` for a non-null remote
(sync.js 331-348): the merge engine runs only when the remote top-level
watermark is strictly newer, and the result's `_syncMeta` is rewritten with
`lastSyncAt = Date.now()` and
`version = max(local.version || 0, remote.version || 0) + 1`. -/
def pullMergeDoc (localData remoteData : Document) (now : Nat) : Document :=
  let merged := if docLastSyncAt localData < docLastSyncAt remoteData
      then mergeProfiles localData (some remoteData) else localData
  let meta : TopSyncMeta :=
    { lastSyncAt := some now,
      version := some (max (docVersion localData) (docVersion remoteData) + 1) }
  { merged with syncMeta := some meta }

/-! ### Version history (sync.js 214-224) -/

/-- One entry of the local version history; `data` is the snapshotted
document (`JSON.stringify(data)` in the source — kept structured here). -/
structure VersionSnapshot where
  timestamp : Nat
  data : Document
deriving DecidableEq

/-- `MAX_HISTORY` (sync.js 31). -/
def MAX_HISTORY : Nat := 10

/-- `saveVersionSnapshot` (sync.js 214-219): prepend a snapshot, then
truncate to `MAX_HISTORY` entries when the list exceeds the cap. -/
def saveVersionSnapshot (history : List VersionSnapshot) (now : Nat) (d : Document) :
    List VersionSnapshot :=
  let h := { timestamp := now, data := d } :: history
  if MAX_HISTORY < h.length then h.take MAX_HISTORY else h

/-- The history produced by a sequence of successful pushes applied in
order, starting from a given stored history (each push calls
`saveVersionSnapshot`, sync.js 309). -/
def pushHistory (pushes : List (Nat × Document)) (init : List VersionSnapshot) :
    List VersionSnapshot :=
  pushes.foldl (fun acc e => saveVersionSnapshot acc e.1 e.2) init

/-! ### Sync coordinator state machine (sync.js 36-48, 292-373) -/

/-- The `currentState` values (sync.js 45-46). -/
inductive SyncState where
  | inactive
  | pending
  | syncing
  | synced
  | error
deriving DecidableEq

/-- The module-level mutable state of the coordinator (sync.js 38-48) plus
the two localStorage values it drives: the tracked document (`store`) and
the version history. -/
structure Coord where
  currentState : SyncState
  pendingChanges : Bool
  lastErrorMsg : String
  hasProvider : Bool
  store : Document
  history : List VersionSnapshot
  lastSyncTime : Option Nat
deriving DecidableEq

/-- The synchronous prefix of `doSync` (sync.js 292-302): the entry guard
`if (!activeProvider || currentState === 'syncing') return;`, then
`setState('syncing')` and the `_syncMeta` stamping of the freshly read local
document.  Returns the updated coordinator and the document handed to
`provider.push`, or `none` when the call was a no-op. -/
def doSyncBegin (c : Coord) (now : Nat) : Coord × Option Document :=
  if c.hasProvider = false ∨ c.currentState = SyncState.syncing then (c, none)
  else ({ c with currentState := SyncState.syncing }, some (stampPush c.store now))

/-- The continuation of `doSync` once `provider.push` settles
(sync.js 302-317): on success the stamped document is persisted, a snapshot
saved, the pending flag cleared and the state set to `synced`; on failure
(`res = some msg`) the error message (`err.message || 'Unknown error'`) is
recorded and the state set to `error` — nothing else changes. -/
def doSyncComplete (c : Coord) (pushed : Document) (res : Option String) (now : Nat) :
    Coord :=
  match res with
  | none =>
    { c with store := pushed,
             history := saveVersionSnapshot c.history now pushed,
             lastSyncTime := some now,
             pendingChanges := false,
             currentState := SyncState.synced }
  | some msg =>
    { c with lastErrorMsg := if msg = "" then "Unknown error" else msg,
             currentState := SyncState.error }

/-- The synchronous prefix of `doPullAndMerge` (sync.js 320-324): the entry
guard `if (!activeProvider) { ... return; }`, then `setState('syncing')` and
the call to `provider.pull`.  Returns the updated coordinator and whether a
pull request was issued. -/
def doPullBegin (c : Coord) : Coord × Bool :=
  if c.hasProvider = false then (c, false)
  else ({ c with currentState := SyncState.syncing }, true)

/-! ### GoogleDriveProvider.pull (sync.js 113-127, 194-205) -/

/-- Outcome of the Drive files-list request made by `_findFile`
(sync.js 116-126).  `noneFound` covers every response whose JSON body has no
matching file — both a genuine empty listing and an HTTP error body, since
`_findFile` never checks `r.ok` and just reads `data.files`.  `reject`
models a rejected fetch (network failure), which propagates. -/
inductive ListResp where
  | found
  | noneFound
  | reject
deriving DecidableEq

/-- Outcome of the `alt=media` download request (sync.js 198-203). -/
inductive DlResp where
  | okBody (d : Document)
  | notOk
  | reject
deriving DecidableEq

/-- The remote world a single `pull` runs against: the ground-truth remote
object (if it exists) and the outcomes of the two HTTP requests. -/
structure DriveEnv where
  remote : Option Document
  listResp : ListResp
  dlResp : DlResp
deriving DecidableEq

/-- Coherence of a `DriveEnv`: a 2xx download body is the remote object's
content, and the listing only finds a file when the remote object exists. -/
def envWF (e : DriveEnv) : Bool :=
  (match e.dlResp with
   | DlResp.okBody d => e.remote == some d
   | _ => true) &&
  (match e.listResp with
   | ListResp.found => e.remote.isSome
   | _ => true)

/-- `GoogleDriveProvider.pull` (sync.js 194-205) with `_findFile`
(sync.js 113-127) inlined: a cached `fileId` short-circuits discovery;
otherwise the listing decides whether a file is known; with no file the
promise resolves to `null`; with a file the download resolves to the decoded
body, or to `null` when the response is not ok (`if (!r.ok) return null;`),
or rejects on network failure. -/
def pull (cachedFileId : Bool) (e : DriveEnv) : Except String (Option Document) :=
  let fileFound : Except String Bool :=
    if cachedFileId then Except.ok true
    else match e.listResp with
      | ListResp.found => Except.ok true
      | ListResp.noneFound => Except.ok false
      | ListResp.reject => Except.error "network"
  match fileFound with
  | Except.error m => Except.error m
  | Except.ok false => Except.ok none
  | Except.ok true =>
    match e.dlResp with
    | DlResp.okBody d => Except.ok (some d)
    | DlResp.notOk => Except.ok none
    | DlResp.reject => Except.error "network"

/-! ### Heap model of `mergeProfiles` (object identity)

`mergeProfiles` (sync.js 249-287) is an imperative function: it deep-copies
the local document (`JSON.parse(JSON.stringify(local))`, line 251) and then
mutates profile objects in place (`lp.checklistData = ...`, `lp[k] = rp[k]`)
and stores remote profile objects by reference
(`mergedProfs[profileName] = rp`, line 257).  To settle whether either
argument is mutated, profile objects are given identity here: a document
holds references into a heap of profile objects, the deep copy allocates
fresh references, and each in-place write is a heap update.  The nested
`checklistData`/`checklistTimestamps` objects stay value-level because the
source never mutates one in place — it builds fresh objects with `$.extend`
and reassigns the field. -/

/-- A reference to a profile object. -/
abbrev Ref := Nat

/-- A heap of profile objects plus a fresh-reference allocator. -/
structure PHeap where
  objs : List (Ref × Profile)
  next : Ref
deriving DecidableEq

/-- Read a profile object. -/
def heapGet (h : PHeap) (r : Ref) : Profile := (lookupA h.objs r).getD emptyProfile

/-- In-place write of a profile object. -/
def heapSet (h : PHeap) (r : Ref) (p : Profile) : PHeap :=
  { h with objs := setA h.objs r p }

/-- Allocate a fresh profile object. -/
def heapAlloc (h : PHeap) (p : Profile) : PHeap × Ref :=
  ({ objs := h.objs ++ [(h.next, p)], next := h.next + 1 }, h.next)

/-- A document whose profiles map holds references to heap objects. -/
structure HDoc where
  profiles : Option (List (String × Ref))
  current : Option String
  syncMeta : Option TopSyncMeta
deriving DecidableEq

/-- Copy every profile of a profiles map into freshly allocated objects
(the profile-level effect of `JSON.parse(JSON.stringify(local))`,
sync.js 251). -/
def copyProfs : PHeap → List (String × Ref) → PHeap × List (String × Ref)
  | h, [] => (h, [])
  | h, e :: rest =>
    let a := heapAlloc h (heapGet h e.2)
    let tail := copyProfs a.1 rest
    (tail.1, (e.1, a.2) :: tail.2)

/-- The deep copy `JSON.parse(JSON.stringify(local))` (sync.js 251): scalar
fields are copied by value, profile objects into fresh references. -/
def deepCopyDoc (h : PHeap) (d : HDoc) : PHeap × HDoc :=
  match d.profiles with
  | none => (h, d)
  | some ps =>
    let c := copyProfs h ps
    (c.1, { d with profiles := some c.2 })

/-- One iteration of the profile loop on the heap (sync.js 255-283): a
remote profile absent from the merged map is stored by reference
(`mergedProfs[profileName] = rp`); one present in both has the object behind
the merged map's reference updated in place. -/
def profStepH (acc : PHeap × List (String × Ref)) (e : String × Ref) :
    PHeap × List (String × Ref) :=
  match lookupA acc.2 e.1 with
  | none => (acc.1, setA acc.2 e.1 e.2)
  | some lpRef =>
    (heapSet acc.1 lpRef (mergeProfilePair (heapGet acc.1 lpRef) (heapGet acc.1 e.2)),
     acc.2)

/-- `mergeProfiles` on the heap (sync.js 249-287). -/
def mergeProfilesH (h : PHeap) (localDoc : HDoc) (remote : Option HDoc) :
    PHeap × HDoc :=
  match remote with
  | none => (h, localDoc)
  | some r =>
    let c := deepCopyDoc h localDoc
    let folded := (r.profiles.getD []).foldl profStepH (c.1, c.2.profiles.getD [])
    (folded.1, { c.2 with profiles := some folded.2 })

/-- The value a heap document denotes: dereference every profile. -/
def docView (h : PHeap) (d : HDoc) : Document :=
  { profiles := d.profiles.map (List.map (fun e => (e.1, heapGet h e.2))),
    current := d.current,
    syncMeta := d.syncMeta }

/-! ### Concrete fixtures used by witnesses and counterexamples -/

/-- Build a profile holding only checklist data and timestamps. -/
def mkChecklistProfile (cd : List (String × JVal)) (ts : List (String × Nat)) : Profile :=
  { emptyProfile with checklistData := some cd, checklistTimestamps := some ts }

/-- Build a single-profile document. -/
def mkDoc (name : String) (p : Profile) : Document :=
  { emptyDoc with profiles := some [(name, p)] }

/-- The five non-mergeable fields of a profile, as one block. -/
def blockOf (p : Profile) :
    Option JVal × Option JVal × Option JVal × Option JVal × Option JVal :=
  (p.style, p.journey, p.hide_completed, p.collapsed, p.map_settings)

/-- The spec's wording for the non-mergeable fields, formalized from the
spec's words for comparison with `mergeProfiles`: "the entire block is taken
from whichever profile has the greater syncMeta.lastSyncAt (remote wins only
if its profile-level sync watermark is strictly newer than local's)". -/
def specBlockWholesale (lp rp : Profile) :
    Option JVal × Option JVal × Option JVal × Option JVal × Option JVal :=
  if (lp.syncMeta.bind (fun m => m.lastSyncAt)).getD 0 <
     (rp.syncMeta.bind (fun m => m.lastSyncAt)).getD 0
  then blockOf rp else blockOf lp

/-- Local profile for the C1 fixture: item `x` checked, stamped at 200. -/
def c1Lp : Profile := mkChecklistProfile [("x", JVal.jbool true)] [("x", 200)]

/-- Remote profile for the C1 fixture: item `x` unchecked, stamped at 100. -/
def c1Rp : Profile := mkChecklistProfile [("x", JVal.jbool false)] [("x", 100)]

/-- A well-formed one-profile document for the C2 witness. -/
def c2Prof : Profile := mkChecklistProfile [("x", JVal.jbool true)] [("x", 5)]

/-- See `c2Prof`. -/
def c2Doc : Document := mkDoc "P" c2Prof

/-- Remote-only profile for the C3 fixture. -/
def c3Rp : Profile := mkChecklistProfile [("y", JVal.jbool true)] [("y", 7)]

/-- Local profile for the C4 fixture: `style` and `journey` defined,
watermark 10. -/
def c4Lp : Profile :=
  { emptyProfile with
    style := some (JVal.jstr "S1"),
    journey := some (JVal.jstr "A"),
    syncMeta := some { lastSyncAt := some 10 } }

/-- Remote profile for the C4 fixture: only `style` defined, watermark 20
(strictly newer than local). -/
def c4Rp : Profile :=
  { emptyProfile with
    style := some (JVal.jstr "S2"),
    syncMeta := some { lastSyncAt := some 20 } }

/-- See `c4Lp`. -/
def c4LocalDoc : Document := mkDoc "P" c4Lp

/-- See `c4Rp`. -/
def c4RemoteDoc : Document := mkDoc "P" c4Rp

/-- C6 fixture: the remote object exists, discovery finds it, but the
download request comes back with a non-2xx status. -/
def c6Env : DriveEnv :=
  { remote := some emptyDoc, listResp := ListResp.found, dlResp := DlResp.notOk }

/-- A coordinator with an active provider currently in the middle of a sync
cycle. -/
def busyCoord : Coord :=
  { currentState := SyncState.syncing, pendingChanges := true, lastErrorMsg := "",
    hasProvider := true, store := emptyDoc, history := [], lastSyncTime := none }

/-- A coordinator with an active provider and an unsynced local edit. -/
def c9Coord : Coord :=
  { currentState := SyncState.pending, pendingChanges := true, lastErrorMsg := "",
    hasProvider := true, store := c2Doc, history := [], lastSyncTime := none }

/-- C10 fixture heap: two allocated profile objects. -/
def c10Heap : PHeap :=
  { objs := [(0, c1Lp), (1, c1Rp)], next := 2 }

/-- C10 fixture: local document referencing object 0. -/
def c10Local : HDoc := { profiles := some [("P", 0)], current := none, syncMeta := none }

/-- C10 fixture: remote document referencing object 1 under two names. -/
def c10Remote : HDoc :=
  { profiles := some [("P", 1), ("Q", 1)], current := none, syncMeta := none }

/-! ### Association-list lemmas -/

@[simp]
theorem keysA_nil {α β : Type} : keysA ([] : List (α × β)) = [] := rfl

@[simp]
theorem keysA_cons {α β : Type} (e : α × β) (l : List (α × β)) :
    keysA (e :: l) = e.1 :: keysA l := rfl

theorem lookupA_setA_self {α β : Type} [DecidableEq α] (l : List (α × β)) (k : α) (v : β) :
    lookupA (setA l k v) k = some v := by
  induction l with
  | nil => simp [setA, lookupA]
  | cons e rest ih =>
    by_cases h : e.1 = k
    · simp [setA, h, lookupA]
    · simp [setA, h, lookupA, ih]

theorem lookupA_setA_ne {α β : Type} [DecidableEq α] (l : List (α × β)) (k : α) (v : β)
    (k2 : α) (h : k2 ≠ k) : lookupA (setA l k v) k2 = lookupA l k2 := by
  have hkk : ¬(k = k2) := fun he => h he.symm
  induction l with
  | nil => simp [setA, lookupA, hkk]
  | cons e rest ih =>
    obtain ⟨a, b⟩ := e
    by_cases he : a = k
    · subst he
      simp [setA, lookupA, hkk]
    · by_cases he2 : a = k2 <;> simp [setA, he, lookupA, he2, ih, h]

theorem setA_of_lookup_eq {α β : Type} [DecidableEq α] (l : List (α × β)) (k : α) (v : β)
    (h : lookupA l k = some v) : setA l k v = l := by
  induction l with
  | nil => simp [lookupA] at h
  | cons e rest ih =>
    obtain ⟨a, b⟩ := e
    by_cases he : a = k
    · simp [lookupA, he] at h
      subst he
      subst h
      simp [setA]
    · simp [lookupA, he] at h
      simp [setA, he, ih h]

theorem lookupA_mem {α β : Type} [DecidableEq α] {l : List (α × β)} {k : α} {v : β}
    (h : lookupA l k = some v) : (k, v) ∈ l := by
  induction l with
  | nil => simp [lookupA] at h
  | cons e rest ih =>
    obtain ⟨a, b⟩ := e
    by_cases he : a = k
    · simp [lookupA, he] at h
      subst he
      subst h
      exact List.mem_cons_self _ _
    · simp [lookupA, he] at h
      exact List.mem_cons_of_mem _ (ih h)

theorem lookupA_of_mem_nodup {α β : Type} [DecidableEq α] {l : List (α × β)} {k : α} {v : β}
    (hm : (k, v) ∈ l) (hn : (keysA l).Nodup) : lookupA l k = some v := by
  induction l with
  | nil => simp at hm
  | cons e rest ih =>
    rcases List.mem_cons.mp hm with h | h
    · simp [lookupA, ← h]
    · have hk : k ∈ keysA rest := List.mem_map.mpr ⟨(k, v), h, rfl⟩
      have he : e.1 ≠ k := by
        intro hek
        exact (List.nodup_cons.mp hn).1 (hek ▸ hk)
      simp [lookupA, he]
      exact ih h (List.nodup_cons.mp hn).2

theorem lookupA_append_single_ne {α β : Type} [DecidableEq α] (l : List (α × β))
    (n : α) (p : β) (k : α) (h : k ≠ n) : lookupA (l ++ [(n, p)]) k = lookupA l k := by
  have hnk : ¬(n = k) := fun he => h he.symm
  induction l with
  | nil => simp [lookupA, hnk]
  | cons e rest ih =>
    by_cases he : e.1 = k <;> simp [lookupA, he, ih]

/-! ### Fold lemmas for the item-level merge loop -/

theorem itemStep_lookup_ne (lts rts : List (String × Nat))
    (acc : List (String × JVal) × List (String × Nat)) (e : String × JVal) (k : String)
    (h : k ≠ e.1) :
    lookupA (itemStep lts rts acc e).1 k = lookupA acc.1 k ∧
    lookupA (itemStep lts rts acc e).2 k = lookupA acc.2 k := by
  unfold itemStep
  by_cases hc : (lookupA lts e.1).getD 0 < (lookupA rts e.1).getD 0 <;>
    simp [hc, lookupA_setA_ne _ _ _ _ h]

theorem foldl_itemStep_not_mem (lts rts : List (String × Nat)) (es : List (String × JVal))
    (acc : List (String × JVal) × List (String × Nat)) (k : String) (h : k ∉ keysA es) :
    lookupA (es.foldl (itemStep lts rts) acc).1 k = lookupA acc.1 k ∧
    lookupA (es.foldl (itemStep lts rts) acc).2 k = lookupA acc.2 k := by
  induction es generalizing acc with
  | nil => exact ⟨rfl, rfl⟩
  | cons e rest ih =>
    simp only [keysA_cons, List.mem_cons, not_or] at h
    have step := itemStep_lookup_ne lts rts acc e k h.1
    have tail := ih (itemStep lts rts acc e) h.2
    exact ⟨tail.1.trans step.1, tail.2.trans step.2⟩

theorem foldl_itemStep_mem (lts rts : List (String × Nat)) {es : List (String × JVal)}
    (acc : List (String × JVal) × List (String × Nat)) {k : String} {rv : JVal}
    (hn : (keysA es).Nodup) (hm : (k, rv) ∈ es) :
    lookupA (es.foldl (itemStep lts rts) acc).1 k =
      (if (lookupA lts k).getD 0 < (lookupA rts k).getD 0 then some rv
       else lookupA acc.1 k) ∧
    lookupA (es.foldl (itemStep lts rts) acc).2 k =
      (if (lookupA lts k).getD 0 < (lookupA rts k).getD 0 then some ((lookupA rts k).getD 0)
       else lookupA acc.2 k) := by
  induction es generalizing acc with
  | nil => simp at hm
  | cons e rest ih =>
    rcases List.mem_cons.mp hm with h | h
    · have hk : k ∉ keysA rest := by
        have := (List.nodup_cons.mp hn).1
        rw [← h] at this
        exact this
      have red := foldl_itemStep_not_mem lts rts rest (itemStep lts rts acc e) k hk
      rw [List.foldl_cons]
      refine ⟨red.1.trans ?_, red.2.trans ?_⟩ <;>
        · rw [← h]
          unfold itemStep
          by_cases hc : (lookupA lts k).getD 0 < (lookupA rts k).getD 0 <;>
            simp [hc, lookupA_setA_self]
    · have hkr : k ∈ keysA rest := List.mem_map.mpr ⟨(k, rv), h, rfl⟩
      have he : k ≠ e.1 := by
        intro hek
        exact (List.nodup_cons.mp hn).1 (hek ▸ hkr)
      have step := itemStep_lookup_ne lts rts acc e k he
      have tail := ih (itemStep lts rts acc e) (List.nodup_cons.mp hn).2 h
      rw [List.foldl_cons]
      exact ⟨tail.1.trans (by rw [step.1]), tail.2.trans (by rw [step.2])⟩

/-! ### Fold lemmas for the profile loop -/

theorem profStep_lookup_ne (mp : List (String × Profile)) (e : String × Profile)
    (k : String) (h : k ≠ e.1) : lookupA (profStep mp e) k = lookupA mp k := by
  unfold profStep
  cases lookupA mp e.1 <;> simp [lookupA_setA_ne _ _ _ _ h]

theorem foldl_profStep_not_mem (es : List (String × Profile)) (mp : List (String × Profile))
    (k : String) (h : k ∉ keysA es) :
    lookupA (es.foldl profStep mp) k = lookupA mp k := by
  induction es generalizing mp with
  | nil => rfl
  | cons e rest ih =>
    simp only [keysA_cons, List.mem_cons, not_or] at h
    rw [List.foldl_cons, ih (profStep mp e) h.2, profStep_lookup_ne mp e k h.1]

theorem foldl_profStep_mem {es : List (String × Profile)} (mp : List (String × Profile))
    {k : String} {rp : Profile} (hn : (keysA es).Nodup) (hm : (k, rp) ∈ es) :
    lookupA (es.foldl profStep mp) k =
      some (match lookupA mp k with
            | none => rp
            | some lp => mergeProfilePair lp rp) := by
  induction es generalizing mp with
  | nil => simp at hm
  | cons e rest ih =>
    rcases List.mem_cons.mp hm with h | h
    · have hk : k ∉ keysA rest := by
        have := (List.nodup_cons.mp hn).1
        rw [← h] at this
        exact this
      rw [List.foldl_cons, foldl_profStep_not_mem rest (profStep mp e) k hk, ← h]
      unfold profStep
      cases lookupA mp k <;> simp [lookupA_setA_self]
    · have hkr : k ∈ keysA rest := List.mem_map.mpr ⟨(k, rp), h, rfl⟩
      have he : k ≠ e.1 := by
        intro hek
        exact (List.nodup_cons.mp hn).1 (hek ▸ hkr)
      rw [List.foldl_cons, ih (profStep mp e) (List.nodup_cons.mp hn).2 h,
        profStep_lookup_ne mp e k he]

/-! ### Projections of `mergeProfilePair` -/

theorem mergeProfilePair_checklistData (lp rp : Profile) :
    (mergeProfilePair lp rp).checklistData =
      some ((rp.checklistData.getD []).foldl
        (itemStep (lp.checklistTimestamps.getD []) (rp.checklistTimestamps.getD []))
        (lp.checklistData.getD [], lp.checklistTimestamps.getD [])).1 := by
  unfold mergeProfilePair
  by_cases h : (lp.syncMeta.bind (fun m => m.lastSyncAt)).getD 0 <
      (rp.syncMeta.bind (fun m => m.lastSyncAt)).getD 0 <;> simp [h]

theorem mergeProfilePair_checklistTimestamps (lp rp : Profile) :
    (mergeProfilePair lp rp).checklistTimestamps =
      some ((rp.checklistData.getD []).foldl
        (itemStep (lp.checklistTimestamps.getD []) (rp.checklistTimestamps.getD []))
        (lp.checklistData.getD [], lp.checklistTimestamps.getD [])).2 := by
  unfold mergeProfilePair
  by_cases h : (lp.syncMeta.bind (fun m => m.lastSyncAt)).getD 0 <
      (rp.syncMeta.bind (fun m => m.lastSyncAt)).getD 0 <;> simp [h]

theorem mergeProfilePair_syncMeta (lp rp : Profile) :
    (mergeProfilePair lp rp).syncMeta = lp.syncMeta := by
  unfold mergeProfilePair
  by_cases h : (lp.syncMeta.bind (fun m => m.lastSyncAt)).getD 0 <
      (rp.syncMeta.bind (fun m => m.lastSyncAt)).getD 0 <;> simp [h]

theorem mergeProfilePair_nonmergeable (lp rp : Profile) :
    (mergeProfilePair lp rp).style =
      (if (lp.syncMeta.bind (fun m => m.lastSyncAt)).getD 0 <
          (rp.syncMeta.bind (fun m => m.lastSyncAt)).getD 0
       then overwrite lp.style rp.style else lp.style) ∧
    (mergeProfilePair lp rp).journey =
      (if (lp.syncMeta.bind (fun m => m.lastSyncAt)).getD 0 <
          (rp.syncMeta.bind (fun m => m.lastSyncAt)).getD 0
       then overwrite lp.journey rp.journey else lp.journey) ∧
    (mergeProfilePair lp rp).hide_completed =
      (if (lp.syncMeta.bind (fun m => m.lastSyncAt)).getD 0 <
          (rp.syncMeta.bind (fun m => m.lastSyncAt)).getD 0
       then overwrite lp.hide_completed rp.hide_completed else lp.hide_completed) ∧
    (mergeProfilePair lp rp).collapsed =
      (if (lp.syncMeta.bind (fun m => m.lastSyncAt)).getD 0 <
          (rp.syncMeta.bind (fun m => m.lastSyncAt)).getD 0
       then overwrite lp.collapsed rp.collapsed else lp.collapsed) ∧
    (mergeProfilePair lp rp).map_settings =
      (if (lp.syncMeta.bind (fun m => m.lastSyncAt)).getD 0 <
          (rp.syncMeta.bind (fun m => m.lastSyncAt)).getD 0
       then overwrite lp.map_settings rp.map_settings else lp.map_settings) := by
  unfold mergeProfilePair
  by_cases h : (lp.syncMeta.bind (fun m => m.lastSyncAt)).getD 0 <
      (rp.syncMeta.bind (fun m => m.lastSyncAt)).getD 0 <;> simp [h]

/-- Merging a profile with itself is the identity, provided the profile's
`checklistData` and `checklistTimestamps` keys are present. -/
theorem mergeProfilePair_self (p : Profile) (hd : p.checklistData.isSome = true)
    (ht : p.checklistTimestamps.isSome = true) : mergeProfilePair p p = p := by
  obtain ⟨cd, hcd⟩ := Option.isSome_iff_exists.mp hd
  obtain ⟨ts, hts⟩ := Option.isSome_iff_exists.mp ht
  have hstep : ∀ (acc : List (String × JVal) × List (String × Nat)) (e : String × JVal),
      itemStep ts ts acc e = acc := by
    intro acc e
    unfold itemStep
    simp
  have hfold : ∀ (es : List (String × JVal)) (acc : List (String × JVal) × List (String × Nat)),
      es.foldl (itemStep ts ts) acc = acc := by
    intro es
    induction es with
    | nil => intro acc; rfl
    | cons e rest ih => intro acc; rw [List.foldl_cons, hstep acc e]; exact ih acc
  unfold mergeProfilePair
  simp [hcd, hts, hfold]
  cases p
  simp at hcd hts
  simp [hcd, hts]

/-! ### History lemmas -/

theorem take_append_take (xs ys : List VersionSnapshot) (n : Nat) :
    (xs ++ ys.take n).take n = (xs ++ ys).take n := by
  rw [List.take_append_eq_append_take, List.take_append_eq_append_take, List.take_take]
  congr 1
  have : min (n - xs.length) n = n - xs.length := Nat.min_eq_left (Nat.sub_le n xs.length)
  rw [this]

theorem saveVersionSnapshot_eq_take (history : List VersionSnapshot) (now : Nat)
    (d : Document) :
    saveVersionSnapshot history now d =
      ({ timestamp := now, data := d } :: history).take MAX_HISTORY := by
  unfold saveVersionSnapshot
  by_cases h : MAX_HISTORY < ({ timestamp := now, data := d } :: history).length
  · simp [h]
  · simp [h, List.take_of_length_le (Nat.le_of_not_lt h)]

theorem pushHistory_eq_take (pushes : List (Nat × Document)) (init : List VersionSnapshot)
    (hinit : init.length ≤ MAX_HISTORY) :
    pushHistory pushes init =
      ((pushes.map (fun e => ({ timestamp := e.1, data := e.2 } : VersionSnapshot))).reverse
        ++ init).take MAX_HISTORY := by
  induction pushes generalizing init with
  | nil =>
    simp [pushHistory, List.take_of_length_le hinit]
  | cons e rest ih =>
    have hstep : saveVersionSnapshot init e.1 e.2 =
        (({ timestamp := e.1, data := e.2 } : VersionSnapshot) :: init).take MAX_HISTORY :=
      saveVersionSnapshot_eq_take init e.1 e.2
    have hlen : (saveVersionSnapshot init e.1 e.2).length ≤ MAX_HISTORY := by
      rw [hstep]
      simp [List.length_take]
    calc pushHistory (e :: rest) init
        = pushHistory rest (saveVersionSnapshot init e.1 e.2) := by
          simp [pushHistory]
      _ = ((rest.map (fun e => ({ timestamp := e.1, data := e.2 } : VersionSnapshot))).reverse
            ++ saveVersionSnapshot init e.1 e.2).take MAX_HISTORY := ih _ hlen
      _ = ((rest.map (fun e => ({ timestamp := e.1, data := e.2 } : VersionSnapshot))).reverse
            ++ (({ timestamp := e.1, data := e.2 } : VersionSnapshot) :: init)).take
            MAX_HISTORY := by
          rw [hstep, take_append_take]
      _ = (((e :: rest).map
              (fun e => ({ timestamp := e.1, data := e.2 } : VersionSnapshot))).reverse
            ++ init).take MAX_HISTORY := by
          simp

/-! ### Further merge lemmas -/

theorem mergeProfiles_profiles_some (localDoc r : Document) :
    (mergeProfiles localDoc (some r)).profiles =
      some ((r.profiles.getD []).foldl profStep (localDoc.profiles.getD [])) := rfl

theorem foldl_profStep_id (es mp : List (String × Profile))
    (h : ∀ e ∈ es, lookupA mp e.1 = some e.2 ∧ mergeProfilePair e.2 e.2 = e.2) :
    es.foldl profStep mp = mp := by
  induction es with
  | nil => rfl
  | cons e rest ih =>
    have he := h e (List.mem_cons_self e rest)
    have hstep : profStep mp e = mp := by
      unfold profStep
      rw [he.1]
      show setA mp e.1 (mergeProfilePair e.2 e.2) = mp
      rw [he.2, setA_of_lookup_eq mp e.1 e.2 he.1]
    rw [List.foldl_cons, hstep]
    exact ih (fun x hx => h x (List.mem_cons_of_mem e hx))

/-! ### Heap lemmas -/

theorem copyProfs_next_le : ∀ (ps : List (String × Ref)) (h : PHeap),
    h.next ≤ (copyProfs h ps).1.next := by
  intro ps
  induction ps with
  | nil => intro h; exact Nat.le_refl _
  | cons e rest ih =>
    intro h
    have halloc : (heapAlloc h (heapGet h e.2)).1.next = h.next + 1 := rfl
    calc h.next ≤ h.next + 1 := Nat.le_succ _
      _ = (heapAlloc h (heapGet h e.2)).1.next := halloc.symm
      _ ≤ (copyProfs (heapAlloc h (heapGet h e.2)).1 rest).1.next := ih _

theorem copyProfs_lookup : ∀ (ps : List (String × Ref)) (h : PHeap) (r : Ref),
    r < h.next → lookupA (copyProfs h ps).1.objs r = lookupA h.objs r := by
  intro ps
  induction ps with
  | nil => intro h r _; rfl
  | cons e rest ih =>
    intro h r hr
    have hobjs : (heapAlloc h (heapGet h e.2)).1.objs =
        h.objs ++ [(h.next, heapGet h e.2)] := rfl
    have hnext : (heapAlloc h (heapGet h e.2)).1.next = h.next + 1 := rfl
    have hstep : (copyProfs h (e :: rest)).1 =
        (copyProfs (heapAlloc h (heapGet h e.2)).1 rest).1 := rfl
    have hr2 : r < (heapAlloc h (heapGet h e.2)).1.next := by
      rw [hnext]
      exact Nat.lt_succ_of_lt hr
    have hne : r ≠ h.next := Nat.ne_of_lt hr
    rw [hstep, ih (heapAlloc h (heapGet h e.2)).1 r hr2, hobjs,
      lookupA_append_single_ne h.objs h.next (heapGet h e.2) r hne]

theorem copyProfs_fresh : ∀ (ps : List (String × Ref)) (h : PHeap) (e : String × Ref),
    e ∈ (copyProfs h ps).2 → h.next ≤ e.2 := by
  intro ps
  induction ps with
  | nil => intro h e he; simp [copyProfs] at he
  | cons e rest ih =>
    intro h x hx
    have hnext : (heapAlloc h (heapGet h e.2)).1.next = h.next + 1 := rfl
    have hstep : (copyProfs h (e :: rest)).2 =
        (e.1, h.next) :: (copyProfs (heapAlloc h (heapGet h e.2)).1 rest).2 := rfl
    rw [hstep] at hx
    rcases List.mem_cons.mp hx with hx | hx
    · rw [hx]
    · have h2 := ih (heapAlloc h (heapGet h e.2)).1 x hx
      rw [hnext] at h2
      exact Nat.le_of_succ_le h2

theorem foldl_profStepH_frame : ∀ (es : List (String × Ref)) (hh : PHeap)
    (mp : List (String × Ref)) (n0 : Nat),
    (keysA es).Nodup →
    (∀ k r2, k ∈ keysA es → lookupA mp k = some r2 → n0 ≤ r2) →
    ∀ r, r < n0 →
      lookupA (es.foldl profStepH (hh, mp)).1.objs r = lookupA hh.objs r := by
  intro es
  induction es with
  | nil => intro hh mp n0 _ _ r _; rfl
  | cons e rest ih =>
    intro hh mp n0 hn hinv r hr
    rw [List.foldl_cons]
    cases hmp : lookupA mp e.1 with
    | none =>
      have hstep : profStepH (hh, mp) e = (hh, setA mp e.1 e.2) := by
        unfold profStepH
        rw [hmp]
      have hinv2 : ∀ k r2, k ∈ keysA rest → lookupA (setA mp e.1 e.2) k = some r2 →
          n0 ≤ r2 := by
        intro k r2 hk hlk
        have hke : k ≠ e.1 := fun hEq => (List.nodup_cons.mp hn).1 (hEq ▸ hk)
        rw [lookupA_setA_ne _ _ _ _ hke] at hlk
        exact hinv k r2 (List.mem_cons_of_mem _ hk) hlk
      rw [hstep]
      exact ih hh (setA mp e.1 e.2) n0 (List.nodup_cons.mp hn).2 hinv2 r hr
    | some lpRef =>
      have hfresh : n0 ≤ lpRef := hinv e.1 lpRef (List.mem_cons_self _ _) hmp
      have hstep : profStepH (hh, mp) e =
          (heapSet hh lpRef (mergeProfilePair (heapGet hh lpRef) (heapGet hh e.2)), mp) := by
        unfold profStepH
        rw [hmp]
      have hinv2 : ∀ k r2, k ∈ keysA rest → lookupA mp k = some r2 → n0 ≤ r2 :=
        fun k r2 hk hlk => hinv k r2 (List.mem_cons_of_mem _ hk) hlk
      have hne : r ≠ lpRef := Nat.ne_of_lt (Nat.lt_of_lt_of_le hr hfresh)
      rw [hstep, ih _ mp n0 (List.nodup_cons.mp hn).2 hinv2 r hr]
      show lookupA (setA hh.objs lpRef
        (mergeProfilePair (heapGet hh lpRef) (heapGet hh e.2))) r = lookupA hh.objs r
      exact lookupA_setA_ne hh.objs lpRef
        (mergeProfilePair (heapGet hh lpRef) (heapGet hh e.2)) r hne

theorem mergeProfilesH_frame (h : PHeap) (localDoc remote : HDoc)
    (hnr : (keysA (remote.profiles.getD [])).Nodup) :
    ∀ r, r < h.next →
      lookupA (mergeProfilesH h localDoc (some remote)).1.objs r = lookupA h.objs r := by
  intro r hr
  obtain ⟨lprofs, lcur, lsync⟩ := localDoc
  cases lprofs with
  | none =>
    show lookupA ((remote.profiles.getD []).foldl profStepH
      (h, ([] : List (String × Ref)))).1.objs r = lookupA h.objs r
    exact foldl_profStepH_frame _ h [] h.next hnr
      (by intro k r2 _ hlk; simp [lookupA] at hlk) r hr
  | some ps =>
    show lookupA ((remote.profiles.getD []).foldl profStepH
      ((copyProfs h ps).1, (copyProfs h ps).2)).1.objs r = lookupA h.objs r
    rw [foldl_profStepH_frame _ _ _ h.next hnr
        (fun k r2 _ hlk => copyProfs_fresh ps h (k, r2) (lookupA_mem hlk)) r hr,
      copyProfs_lookup ps h r hr]

theorem docView_congr (h1 h2 : PHeap) (d : HDoc)
    (hag : ∀ e ∈ d.profiles.getD [], lookupA h1.objs e.2 = lookupA h2.objs e.2) :
    docView h1 d = docView h2 d := by
  unfold docView
  cases hp : d.profiles with
  | none => simp
  | some ps =>
    have hmap : ps.map (fun e => (e.1, heapGet h1 e.2)) =
        ps.map (fun e => (e.1, heapGet h2 e.2)) := by
      apply List.map_congr_left
      intro e he
      have := hag e (by rw [hp]; simpa using he)
      simp [heapGet, this]
    simp [hmap]

/-! ### Claim theorems -/

/-- Claim C1: in `mergeProfiles`, for a profile present in both documents
and an item id in the remote profile's `checklistData` that is also present
locally, comparing the remote timestamp (default 0) with the local one
(default 0): the merged value is the remote one exactly when the remote
timestamp is strictly greater (ties and local-greater keep local), and the
merged timestamp equals `max(localTs, remoteTs)`. -/
theorem C1_item_level_merge (localDoc remote : Document) (name itemId : String)
    (lp rp : Profile) (lVal rVal : JVal)
    (hnr : (keysA (remote.profiles.getD [])).Nodup)
    (hl : lookupA (localDoc.profiles.getD []) name = some lp)
    (hr : (name, rp) ∈ remote.profiles.getD [])
    (hnd : (keysA (rp.checklistData.getD [])).Nodup)
    (hld : lookupA (lp.checklistData.getD []) itemId = some lVal)
    (hrd : (itemId, rVal) ∈ rp.checklistData.getD []) :
    ∃ mp : Profile,
      lookupA ((mergeProfiles localDoc (some remote)).profiles.getD []) name = some mp ∧
      (lookupA (mp.checklistTimestamps.getD []) itemId).getD 0 =
        max ((lookupA (lp.checklistTimestamps.getD []) itemId).getD 0)
            ((lookupA (rp.checklistTimestamps.getD []) itemId).getD 0) ∧
      lookupA (mp.checklistData.getD []) itemId =
        some (if (lookupA (lp.checklistTimestamps.getD []) itemId).getD 0 <
                 (lookupA (rp.checklistTimestamps.getD []) itemId).getD 0
              then rVal else lVal) := by
  refine ⟨mergeProfilePair lp rp, ?_, ?_, ?_⟩
  · rw [mergeProfiles_profiles_some, Option.getD_some, foldl_profStep_mem _ hnr hr, hl]
  · rw [mergeProfilePair_checklistTimestamps, Option.getD_some,
      (foldl_itemStep_mem (lp.checklistTimestamps.getD []) (rp.checklistTimestamps.getD [])
        (lp.checklistData.getD [], lp.checklistTimestamps.getD []) hnd hrd).2]
    by_cases hc : (lookupA (lp.checklistTimestamps.getD []) itemId).getD 0 <
        (lookupA (rp.checklistTimestamps.getD []) itemId).getD 0
    · simp [hc, Nat.max_eq_right (Nat.le_of_lt hc)]
    · simp [hc, Nat.max_eq_left (Nat.le_of_not_lt hc)]
  · rw [mergeProfilePair_checklistData, Option.getD_some,
      (foldl_itemStep_mem (lp.checklistTimestamps.getD []) (rp.checklistTimestamps.getD [])
        (lp.checklistData.getD [], lp.checklistTimestamps.getD []) hnd hrd).1]
    by_cases hc : (lookupA (lp.checklistTimestamps.getD []) itemId).getD 0 <
        (lookupA (rp.checklistTimestamps.getD []) itemId).getD 0
    · simp [hc]
    · simp [hc, hld]

/-- Witness for C1 at a concrete input (scenario B of the spec: local newer,
so the local value `true` and timestamp 200 survive). -/
theorem C1_item_level_merge_witness :
    ∃ mp : Profile,
      lookupA ((mergeProfiles (mkDoc "P" c1Lp) (some (mkDoc "P" c1Rp))).profiles.getD [])
        "P" = some mp ∧
      (lookupA (mp.checklistTimestamps.getD []) "x").getD 0 =
        max ((lookupA (c1Lp.checklistTimestamps.getD []) "x").getD 0)
            ((lookupA (c1Rp.checklistTimestamps.getD []) "x").getD 0) ∧
      lookupA (mp.checklistData.getD []) "x" =
        some (if (lookupA (c1Lp.checklistTimestamps.getD []) "x").getD 0 <
                 (lookupA (c1Rp.checklistTimestamps.getD []) "x").getD 0
              then JVal.jbool false else JVal.jbool true) :=
  C1_item_level_merge (mkDoc "P" c1Lp) (mkDoc "P" c1Rp) "P" "x" c1Lp c1Rp
    (JVal.jbool true) (JVal.jbool false)
    (by decide) (by decide) (by decide) (by decide) (by decide) (by decide)

/-- Claim C2 counterexample: merging the empty document with itself is not
the identity — the merge always (re)creates the profiles key, so the result
serializes as a document with an empty profiles map, not as the empty
document. -/
theorem C2_counterexample : mergeProfiles emptyDoc (some emptyDoc) ≠ emptyDoc := by
  decide

/-- Claim C2 (amended): `merge(D, null) = D` holds for every document, and
`merge(D, D) = D` (hence byte-identical serialization) holds for every
document whose profiles key is present (with distinct profile names) and
each of whose profiles has its `checklistData` and `checklistTimestamps`
keys present; a document missing any of those keys can gain them, as in the
counterexample. -/
theorem C2_idempotence_amended :
    (∀ d : Document, mergeProfiles d none = d) ∧
    ∀ (d : Document) (ps : List (String × Profile)),
      d.profiles = some ps → (keysA ps).Nodup →
      (∀ e ∈ ps, e.2.checklistData.isSome = true ∧ e.2.checklistTimestamps.isSome = true) →
      mergeProfiles d (some d) = d := by
  constructor
  · intro d
    rfl
  · intro d ps hps hn hfields
    have hfold : ps.foldl profStep ps = ps := by
      apply foldl_profStep_id
      intro e he
      refine ⟨lookupA_of_mem_nodup ?_ hn, mergeProfilePair_self e.2 (hfields e he).1 (hfields e he).2⟩
      rw [Prod.mk.eta]
      exact he
    have : mergeProfiles d (some d) = { d with profiles := some (ps.foldl profStep ps) } := by
      rw [mergeProfiles]
      rw [hps]
      rfl
    rw [this, hfold]
    cases d
    simp at hps
    simp [hps]

/-- Witness for the amended C2 at a concrete one-profile document. -/
theorem C2_idempotence_amended_witness :
    mergeProfiles c2Doc (some c2Doc) = c2Doc ∧ mergeProfiles c2Doc none = c2Doc :=
  ⟨C2_idempotence_amended.2 c2Doc [("P", c2Prof)] rfl (by decide) (by decide),
   C2_idempotence_amended.1 c2Doc⟩

/-- Claim C3: every profile present in the remote document but absent from
the local one appears in the merged document verbatim. -/
theorem C3_remote_only_profile_adopted (localDoc remote : Document) (name : String)
    (rp : Profile)
    (hnr : (keysA (remote.profiles.getD [])).Nodup)
    (habs : lookupA (localDoc.profiles.getD []) name = none)
    (hr : (name, rp) ∈ remote.profiles.getD []) :
    lookupA ((mergeProfiles localDoc (some remote)).profiles.getD []) name = some rp := by
  rw [mergeProfiles_profiles_some, Option.getD_some, foldl_profStep_mem _ hnr hr, habs]

/-- Witness for C3 (scenario D of the spec): remote profile `Trip2` absent
locally lands in the merge verbatim. -/
theorem C3_remote_only_profile_adopted_witness :
    lookupA ((mergeProfiles (mkDoc "Trip1" c1Lp) (some (mkDoc "Trip2" c3Rp))).profiles.getD [])
      "Trip2" = some c3Rp :=
  C3_remote_only_profile_adopted (mkDoc "Trip1" c1Lp) (mkDoc "Trip2" c3Rp) "Trip2" c3Rp
    (by decide) (by decide) (by decide)

/-- Claim C4 counterexample: with the remote watermark strictly newer
(20 > 10), the remote profile defining `style` but not `journey`, and the
local profile defining both, the merged profile keeps the local `journey` —
the non-mergeable fields are not taken from the remote profile as an entire
block. -/
theorem C4_counterexample :
    blockOf ((lookupA ((mergeProfiles c4LocalDoc (some c4RemoteDoc)).profiles.getD [])
        "P").getD emptyProfile) ≠ specBlockWholesale c4Lp c4Rp := by
  decide

/-- Claim C4 (amended): for a profile present in both documents, when the
remote profile's `syncMeta.lastSyncAt` (default 0) is strictly greater than
the local's, each of the five non-mergeable fields is overwritten by the
remote value only where the remote field is defined (locally defined fields
that the remote lacks survive); otherwise all five fields keep their local
values. -/
theorem C4_nonmergeable_fields_amended (localDoc remote : Document) (name : String)
    (lp rp : Profile)
    (hnr : (keysA (remote.profiles.getD [])).Nodup)
    (hl : lookupA (localDoc.profiles.getD []) name = some lp)
    (hr : (name, rp) ∈ remote.profiles.getD []) :
    ∃ mp : Profile,
      lookupA ((mergeProfiles localDoc (some remote)).profiles.getD []) name = some mp ∧
      mp.style = (if (lp.syncMeta.bind (fun m => m.lastSyncAt)).getD 0 <
          (rp.syncMeta.bind (fun m => m.lastSyncAt)).getD 0
        then overwrite lp.style rp.style else lp.style) ∧
      mp.journey = (if (lp.syncMeta.bind (fun m => m.lastSyncAt)).getD 0 <
          (rp.syncMeta.bind (fun m => m.lastSyncAt)).getD 0
        then overwrite lp.journey rp.journey else lp.journey) ∧
      mp.hide_completed = (if (lp.syncMeta.bind (fun m => m.lastSyncAt)).getD 0 <
          (rp.syncMeta.bind (fun m => m.lastSyncAt)).getD 0
        then overwrite lp.hide_completed rp.hide_completed else lp.hide_completed) ∧
      mp.collapsed = (if (lp.syncMeta.bind (fun m => m.lastSyncAt)).getD 0 <
          (rp.syncMeta.bind (fun m => m.lastSyncAt)).getD 0
        then overwrite lp.collapsed rp.collapsed else lp.collapsed) ∧
      mp.map_settings = (if (lp.syncMeta.bind (fun m => m.lastSyncAt)).getD 0 <
          (rp.syncMeta.bind (fun m => m.lastSyncAt)).getD 0
        then overwrite lp.map_settings rp.map_settings else lp.map_settings) := by
  refine ⟨mergeProfilePair lp rp, ?_, ?_, ?_, ?_, ?_, ?_⟩
  · rw [mergeProfiles_profiles_some, Option.getD_some, foldl_profStep_mem _ hnr hr, hl]
  · exact (mergeProfilePair_nonmergeable lp rp).1
  · exact (mergeProfilePair_nonmergeable lp rp).2.1
  · exact (mergeProfilePair_nonmergeable lp rp).2.2.1
  · exact (mergeProfilePair_nonmergeable lp rp).2.2.2.1
  · exact (mergeProfilePair_nonmergeable lp rp).2.2.2.2

/-- Witness for the amended C4 at the same fixture as the counterexample. -/
theorem C4_nonmergeable_fields_amended_witness :
    ∃ mp : Profile,
      lookupA ((mergeProfiles c4LocalDoc (some c4RemoteDoc)).profiles.getD []) "P" =
        some mp ∧
      mp.style = (if (c4Lp.syncMeta.bind (fun m => m.lastSyncAt)).getD 0 <
          (c4Rp.syncMeta.bind (fun m => m.lastSyncAt)).getD 0
        then overwrite c4Lp.style c4Rp.style else c4Lp.style) ∧
      mp.journey = (if (c4Lp.syncMeta.bind (fun m => m.lastSyncAt)).getD 0 <
          (c4Rp.syncMeta.bind (fun m => m.lastSyncAt)).getD 0
        then overwrite c4Lp.journey c4Rp.journey else c4Lp.journey) ∧
      mp.hide_completed = (if (c4Lp.syncMeta.bind (fun m => m.lastSyncAt)).getD 0 <
          (c4Rp.syncMeta.bind (fun m => m.lastSyncAt)).getD 0
        then overwrite c4Lp.hide_completed c4Rp.hide_completed else c4Lp.hide_completed) ∧
      mp.collapsed = (if (c4Lp.syncMeta.bind (fun m => m.lastSyncAt)).getD 0 <
          (c4Rp.syncMeta.bind (fun m => m.lastSyncAt)).getD 0
        then overwrite c4Lp.collapsed c4Rp.collapsed else c4Lp.collapsed) ∧
      mp.map_settings = (if (c4Lp.syncMeta.bind (fun m => m.lastSyncAt)).getD 0 <
          (c4Rp.syncMeta.bind (fun m => m.lastSyncAt)).getD 0
        then overwrite c4Lp.map_settings c4Rp.map_settings else c4Lp.map_settings) :=
  C4_nonmergeable_fields_amended c4LocalDoc c4RemoteDoc "P" c4Lp c4Rp
    (by decide) (by decide) (by decide)

/-- Claim C5: the top-level `SyncMeta.version` strictly increases across
every successful sync cycle — a push cycle stamps the prior local version
plus one, and a pull-and-merge cycle stamps
`max(local.version, remote.version) + 1` (missing versions default to 0);
both stamp `lastSyncAt` with the cycle time. -/
theorem C5_version_strictly_increases (d localData remoteData : Document) (now : Nat) :
    docVersion (stampPush d now) = docVersion d + 1 ∧
    docVersion d < docVersion (stampPush d now) ∧
    docLastSyncAt (stampPush d now) = now ∧
    docVersion (pullMergeDoc localData remoteData now) =
      max (docVersion localData) (docVersion remoteData) + 1 ∧
    docVersion localData < docVersion (pullMergeDoc localData remoteData now) ∧
    docVersion remoteData < docVersion (pullMergeDoc localData remoteData now) ∧
    docLastSyncAt (pullMergeDoc localData remoteData now) = now := by
  refine ⟨?_, ?_, ?_, ?_, ?_, ?_, ?_⟩ <;>
    simp [stampPush, pullMergeDoc, docVersion, docLastSyncAt] <;> omega

/-- Claim C6 counterexample: a coherent environment in which the remote
object exists (it was found by discovery) but the download response is not
ok — `pull` resolves to `null` anyway, so `null` does not mean "no remote
object exists". -/
theorem C6_counterexample :
    envWF c6Env = true ∧ c6Env.remote ≠ none ∧ pull true c6Env = Except.ok none :=
  ⟨rfl, by decide, rfl⟩

/-- Claim C6 (amended): `pull` resolves to `null` exactly when either no
remote file is known (no cached id, and the listing body has no match —
including non-ok listing bodies) or a file is known but the download
response is not ok; network-level rejections are the only failures. -/
theorem C6_pull_null_amended (cachedFileId : Bool) (e : DriveEnv) :
    pull cachedFileId e = Except.ok none ↔
      ((cachedFileId = false ∧ e.listResp = ListResp.noneFound) ∨
       ((cachedFileId = true ∨ e.listResp = ListResp.found) ∧ e.dlResp = DlResp.notOk)) := by
  obtain ⟨rem, lr, dr⟩ := e
  cases cachedFileId <;> cases lr <;> cases dr <;> simp [pull]

/-- Claim C7: `saveVersionSnapshot` prepends the new snapshot and truncates
to the cap, so after more than `MAX_HISTORY = 10` successful pushes the
stored history has exactly 10 entries and equals the reversal of the pushed
snapshots truncated to 10 — newest first. -/
theorem C7_history_cap :
    (∀ (history : List VersionSnapshot) (now : Nat) (d : Document),
        saveVersionSnapshot history now d =
          ({ timestamp := now, data := d } :: history).take MAX_HISTORY) ∧
    ∀ pushes : List (Nat × Document), MAX_HISTORY < pushes.length →
      (pushHistory pushes []).length = MAX_HISTORY ∧
      pushHistory pushes [] =
        ((pushes.map (fun e => ({ timestamp := e.1, data := e.2 } : VersionSnapshot))).reverse).take
          MAX_HISTORY := by
  constructor
  · exact saveVersionSnapshot_eq_take
  · intro pushes hlen
    have heq := pushHistory_eq_take pushes [] (by simp)
    constructor
    · rw [heq]
      simp [List.length_take]
      omega
    · rw [heq]
      simp

/-- Witness for C7: after 11 pushes the history holds exactly 10 entries. -/
theorem C7_history_cap_witness :
    MAX_HISTORY < (List.replicate 11 ((0 : Nat), emptyDoc)).length ∧
    (pushHistory (List.replicate 11 ((0 : Nat), emptyDoc)) []).length = MAX_HISTORY :=
  ⟨by decide, (C7_history_cap.2 (List.replicate 11 ((0 : Nat), emptyDoc)) (by decide)).1⟩

/-- Claim C8 counterexample: with an active provider and the state already
`syncing`, a `doPullAndMerge` request is not a no-op — its guard checks only
the provider, so it issues a pull (second component `true`) while another
cycle is in flight. -/
theorem C8_counterexample :
    doPullBegin busyCoord ≠ (busyCoord, false) ∧ (doPullBegin busyCoord).2 = true := by
  constructor
  · decide
  · decide

/-- Claim C8 (amended): only `doSync` is serialized by the `syncing` state —
a `doSync` request during `syncing` is a no-op, while `doPullAndMerge` is
guarded only by the presence of an active provider and starts a
pull-and-merge cycle even while the state is `syncing`. -/
theorem C8_serialization_amended :
    (∀ (c : Coord) (now : Nat), c.currentState = SyncState.syncing →
      doSyncBegin c now = (c, none)) ∧
    (∀ c : Coord, c.hasProvider = true →
      doPullBegin c = ({ c with currentState := SyncState.syncing }, true)) := by
  constructor
  · intro c now hstate
    simp [doSyncBegin, hstate]
  · intro c hprov
    simp [doPullBegin, hprov]

/-- Witness for the amended C8 at the concrete busy coordinator. -/
theorem C8_serialization_amended_witness :
    busyCoord.currentState = SyncState.syncing ∧ busyCoord.hasProvider = true ∧
    doSyncBegin busyCoord 7 = (busyCoord, none) ∧
    doPullBegin busyCoord = ({ busyCoord with currentState := SyncState.syncing }, true) :=
  ⟨rfl, rfl, C8_serialization_amended.1 busyCoord 7 rfl,
   C8_serialization_amended.2 busyCoord rfl⟩

/-- Claim C9: when the push of a push cycle fails, the error message is
recorded (`err.message || 'Unknown error'`), the state becomes `error`, and
the pending flag and the stored document are untouched; a later cycle
starts from the guard again and pushes a fresh stamping of the
current local document. -/
theorem C9_push_failure_preserves_pending (c : Coord) (pushed : Document) (msg : String)
    (now now2 : Nat) (hprov : c.hasProvider = true) :
    (doSyncComplete c pushed (some msg) now).currentState = SyncState.error ∧
    (doSyncComplete c pushed (some msg) now).lastErrorMsg =
      (if msg = "" then "Unknown error" else msg) ∧
    (doSyncComplete c pushed (some msg) now).pendingChanges = c.pendingChanges ∧
    (doSyncComplete c pushed (some msg) now).store = c.store ∧
    doSyncBegin (doSyncComplete c pushed (some msg) now) now2 =
      ({ doSyncComplete c pushed (some msg) now with currentState := SyncState.syncing },
       some (stampPush c.store now2)) := by
  refine ⟨rfl, rfl, rfl, rfl, ?_⟩
  simp [doSyncComplete, doSyncBegin, hprov]

/-- Witness for C9 at a concrete coordinator with a pending local edit. -/
theorem C9_push_failure_preserves_pending_witness :
    (doSyncComplete c9Coord c2Doc (some "boom") 50).currentState = SyncState.error ∧
    (doSyncComplete c9Coord c2Doc (some "boom") 50).lastErrorMsg =
      (if "boom" = "" then "Unknown error" else "boom") ∧
    (doSyncComplete c9Coord c2Doc (some "boom") 50).pendingChanges = c9Coord.pendingChanges ∧
    (doSyncComplete c9Coord c2Doc (some "boom") 50).store = c9Coord.store ∧
    doSyncBegin (doSyncComplete c9Coord c2Doc (some "boom") 50) 60 =
      ({ doSyncComplete c9Coord c2Doc (some "boom") 50 with
          currentState := SyncState.syncing },
       some (stampPush c9Coord.store 60)) :=
  C9_push_failure_preserves_pending c9Coord c2Doc "boom" 50 60 rfl

/-- Claim C10: `mergeProfiles` mutates neither argument — it builds its
result from a deep copy of the local document, every in-place profile write
lands in a freshly allocated object, so after the call the values of both
the local and the remote input documents are unchanged. -/
theorem C10_arguments_unchanged (h : PHeap) (localDoc remote : HDoc)
    (hnr : (keysA (remote.profiles.getD [])).Nodup)
    (hl : ∀ e ∈ localDoc.profiles.getD [], e.2 < h.next)
    (hr : ∀ e ∈ remote.profiles.getD [], e.2 < h.next) :
    docView (mergeProfilesH h localDoc (some remote)).1 localDoc = docView h localDoc ∧
    docView (mergeProfilesH h localDoc (some remote)).1 remote = docView h remote := by
  have hframe := mergeProfilesH_frame h localDoc remote hnr
  exact ⟨docView_congr _ _ _ (fun e he => hframe e.2 (hl e he)),
         docView_congr _ _ _ (fun e he => hframe e.2 (hr e he))⟩

/-- Witness for C10 at a concrete two-object heap. -/
theorem C10_arguments_unchanged_witness :
    docView (mergeProfilesH c10Heap c10Local (some c10Remote)).1 c10Local =
      docView c10Heap c10Local ∧
    docView (mergeProfilesH c10Heap c10Local (some c10Remote)).1 c10Remote =
      docView c10Heap c10Remote :=
  C10_arguments_unchanged c10Heap c10Local c10Remote (by decide) (by decide) (by decide)

end RoundtableSync
